import Mathlib

/-! Chat relay server and chat client: embedding and verified properties.

Shallow embedding of `src/server.js` (session store, prompt assembly, training
corpus) and of `src/script.js` (the `ChatBot` client controller).

Conventions of the embedding
* JavaScript strings are modelled by `String`; request fields that may be absent
  are `Option String` (`none` is `undefined`).
* The module-level `conversations` map and `trainingData` array are passed
  explicitly: every handler takes the state and returns the new state.
* An `await` on the completion API is modelled by an explicit outcome value
  (`Completion`); a thrown exception is the `fail` outcome.
-/

namespace ChatServer

/-! ## JavaScript array and string primitives used by the source -/

/-- The method `Array.prototype.slice(start)` with a single (possibly negative) argument:
a negative `start` counts from the end and is clamped at 0, a non-negative one
is clamped at the length; the copy runs to the end of the array. -/
def jsSlice {α : Type} (start : Int) (xs : List α) : List α :=
  let len : Int := xs.length
  let k : Int := if start < 0 then max (len + start) 0 else min start len
  xs.drop k.toNat

/-- The method `Array.prototype.splice(start, deleteCount)` for `start ≥ 0`, as the array
left behind: `deleteCount` elements (as many as exist) are removed at `start`. -/
def jsSplice {α : Type} (start deleteCount : Nat) (xs : List α) : List α :=
  xs.take start ++ xs.drop (start + deleteCount)

/-- Characters removed by `String.prototype.trim`: ECMAScript WhiteSpace and
LineTerminator code points. -/
def isJsWhiteSpace (c : Char) : Bool :=
  let n := c.toNat
  n == 0x09 || n == 0x0A || n == 0x0B || n == 0x0C || n == 0x0D || n == 0x20 ||
  n == 0xA0 || n == 0x1680 || (0x2000 ≤ n && n ≤ 0x200A) || n == 0x2028 ||
  n == 0x2029 || n == 0x202F || n == 0x205F || n == 0x3000 || n == 0xFEFF

/-- The method `String.prototype.trim`. -/
def jsTrim (s : String) : String :=
  ⟨((s.data.dropWhile isJsWhiteSpace).reverse.dropWhile isJsWhiteSpace).reverse⟩

/-- JavaScript falsiness of a request field that is a string or absent:
`!v` holds exactly for `undefined` and for the empty string. -/
def falsy (v : Option String) : Bool :=
  match v with
  | none => true
  | some s => s.data.isEmpty

/-! ## Data model -/

/-- The `role` of a message sent to the completion API. -/
inductive Role where
  | system
  | user
  | assistant
  deriving DecidableEq, Repr

/-- One message object `{ role, content }`. -/
structure Turn where
  role : Role
  content : String
  deriving DecidableEq, Repr

/-- One element of `trainingData`. -/
structure TrainingExample where
  id : Nat
  input : String
  output : String
  category : String
  timestamp : String
  deriving DecidableEq, Repr

/-- The `conversations` map: a JavaScript `Map` from session id to the array of
turns, kept as the list of its entries in insertion order. -/
abbrev Conversations := List (String × List Turn)

/-- The method `Map.prototype.has`. -/
def mapHas (m : Conversations) (k : String) : Bool :=
  m.any (fun e => e.1 == k)

/-- The method `Map.prototype.get` (`none` is `undefined`). -/
def mapGet (m : Conversations) (k : String) : Option (List Turn) :=
  (m.find? (fun e => e.1 == k)).map (fun e => e.2)

/-- The method `Map.prototype.set`: an existing key keeps its position, a new key is added
at the end. -/
def mapSet (m : Conversations) (k : String) (v : List Turn) : Conversations :=
  if mapHas m k then m.map (fun e => if e.1 == k then (k, v) else e) else m ++ [(k, v)]

/-- The method `Map.prototype.delete`. -/
def mapDelete (m : Conversations) (k : String) : Conversations :=
  m.filter (fun e => e.1 != k)

/-- The stored history of a session as the session store reports it: the array
held under the key, the empty sequence when the key is absent. -/
def history (m : Conversations) (k : String) : List Turn :=
  (mapGet m k).getD []

/-! ## Prompt assembly (`createSystemPrompt`) -/

def persona : String :=
  "You are a helpful AI chatbot assistant for a chat website. Be friendly, helpful, and conversational."

def examplesHeader : String :=
  "\n\nHere are some examples of how you should respond based on training data:\n"

def closing : String :=
  "\n\nAlways be helpful, accurate, and maintain a friendly tone. If you don't know something, admit it honestly."

/-- The body of the `forEach` callback of `createSystemPrompt`: `prompt += ...`. -/
def appendExample (prompt : String) (example_ : TrainingExample) : String :=
  prompt ++ ("\nUser: " ++ example_.input ++ "\nAssistant: " ++ example_.output ++ "\n")

/-- The function `createSystemPrompt()`, reading `trainingData`. -/
def createSystemPrompt (trainingData : List TrainingExample) : String :=
  let prompt := persona
  let prompt :=
    if trainingData.length > 0 then
      (jsSlice (-10) trainingData).foldl appendExample (prompt ++ examplesHeader)
    else prompt
  prompt ++ closing

/-! ## Chat endpoint (`POST /api/chat`) -/

/-- The fields of the request body the handler reads (`userId` is never used). -/
structure ChatBody where
  message : Option String
  sessionId : Option String
  deriving DecidableEq, Repr

/-- Outcome of `await openai.chat.completions.create(...)` followed by reading
`completion.choices[0].message.content`: the text, or a thrown error. -/
inductive Completion where
  | ok (content : String)
  | fail (errorMessage : String)
  deriving DecidableEq, Repr

/-- The HTTP response of the chat handler (the `timestamp` field of the 200
body is the wall clock and is left out). -/
inductive ChatResponse where
  | error400 (error : String)
  | ok200 (response : String) (sessionId : String)
  | error500 (error : String) (details : String)
  deriving DecidableEq, Repr

/-- The `sessionId = 'default'` destructuring default. -/
def sessionIdOf (body : ChatBody) : String :=
  body.sessionId.getD "default"

/-- The message list of lines 69-72: the system message, then
`conversation.slice(-10)`. -/
def buildMessages (trainingData : List TrainingExample) (conversation : List Turn) : List Turn :=
  ⟨Role.system, createSystemPrompt trainingData⟩ :: jsSlice (-10) conversation

/-- The chat handler up to the `await` (lines 49-80): `none` when the request is
answered 400 before the store is touched; otherwise the store after the user
turn has been pushed, the session id, and the messages sent upstream. -/
def chatPrepare (conversations : Conversations) (trainingData : List TrainingExample)
    (body : ChatBody) : Option (Conversations × String × List Turn) :=
  if falsy body.message then none
  else
    let message := body.message.getD ""
    let sessionId := sessionIdOf body
    let conversations :=
      if !mapHas conversations sessionId then mapSet conversations sessionId [] else conversations
    let conversation := (mapGet conversations sessionId).getD []
    let conversation := conversation ++ [⟨Role.user, message⟩]
    let conversations := mapSet conversations sessionId conversation
    some (conversations, sessionId, buildMessages trainingData conversation)

/-- The trim step of lines 88-90. -/
def trimStep (conversation : List Turn) : List Turn :=
  if conversation.length > 20 then jsSplice 0 2 conversation else conversation

/-- The chat handler after the `await` (lines 82-104): on success the assistant
turn is pushed and the trim step runs; on a thrown error the `catch` block only
builds the 500 response. -/
def chatComplete (conversations : Conversations) (sessionId : String) (c : Completion) :
    Conversations × ChatResponse :=
  match c with
  | Completion.ok aiResponse =>
    let conversation := (mapGet conversations sessionId).getD []
    let conversation := conversation ++ [⟨Role.assistant, aiResponse⟩]
    let conversation := trimStep conversation
    (mapSet conversations sessionId conversation, ChatResponse.ok200 aiResponse sessionId)
  | Completion.fail msg =>
    (conversations, ChatResponse.error500 "Failed to process chat message" msg)

/-- One whole chat request, run without interleaving. -/
def chat (conversations : Conversations) (trainingData : List TrainingExample)
    (body : ChatBody) (c : Completion) : Conversations × ChatResponse :=
  match chatPrepare conversations trainingData body with
  | none => (conversations, ChatResponse.error400 "Message is required")
  | some (conversations, sessionId, _) => chatComplete conversations sessionId c

/-- A sequence of chat requests handled one after the other. -/
def chatAll (conversations : Conversations) (trainingData : List TrainingExample)
    (reqs : List (ChatBody × Completion)) : Conversations :=
  reqs.foldl (fun st r => (chat st trainingData r.1 r.2).1) conversations

/-! ## Session clear (`DELETE /api/conversation/:sessionId`) -/

/-- The clear handler: deletes the key and always answers 200. -/
def clearConversation (conversations : Conversations) (sessionId : String) :
    Conversations × Nat :=
  (mapDelete conversations sessionId, 200)

/-! ## Training endpoint (`POST /api/train`) -/

structure TrainBody where
  input : Option String
  output : Option String
  category : Option String
  deriving DecidableEq, Repr

inductive TrainResponse where
  | error400 (error : String)
  | ok200 (message : String) (totalExamples : Nat)
  deriving DecidableEq, Repr

/-- The training handler; `now` is the value `Date.now()` returns and `iso` the
string `new Date().toISOString()` returns during this request. Writing the
snapshot to disk (`saveTrainingData`) catches its own errors and does not
change `trainingData`. -/
def train (trainingData : List TrainingExample) (body : TrainBody) (now : Nat) (iso : String) :
    List TrainingExample × TrainResponse :=
  if falsy body.input || falsy body.output then
    (trainingData, TrainResponse.error400 "Both input and output are required")
  else
    let trainingData := trainingData ++
      [{ id := now
         input := jsTrim (body.input.getD "")
         output := jsTrim (body.output.getD "")
         category := body.category.getD "general"
         timestamp := iso }]
    (trainingData, TrainResponse.ok200 "Training data added successfully" trainingData.length)

/-- A sequence of training requests, each with its clock reading. -/
def trainAll (trainingData : List TrainingExample) (reqs : List (TrainBody × Nat × String)) :
    List TrainingExample :=
  reqs.foldl (fun td r => (train td r.1 r.2.1 r.2.2).1) trainingData


/-! ## Specification-side definitions -/

/-- The rendering of one training example as the specification words it. -/
def renderExample (e : TrainingExample) : String :=
  "\nUser: " ++ e.input ++ "\nAssistant: " ++ e.output ++ "\n"

/-- The last `min(10, n)` elements of a sequence of length `n`, oldest first. -/
def lastTen {α : Type} (xs : List α) : List α :=
  xs.drop (xs.length - min 10 xs.length)

/-- The example block as the specification words it: empty for an empty
corpus, otherwise the header followed by the renderings of the last
`min(10, n)` examples in corpus order. -/
def examplesBlock (c : List TrainingExample) : String :=
  if c.length = 0 then "" else examplesHeader ++ String.join ((lastTen c).map renderExample)

/-- The request of exchange `i` of a scripted conversation on session `s2`:
user message `u i`, answered upstream by `a i`. -/
def exchange (u a : Nat → String) (i : Nat) : ChatBody × Completion :=
  (⟨some (u i), some "s2"⟩, Completion.ok (a i))

/-- The turns of the first `n` exchanges of the scripted conversation, in the
order they are appended. -/
def turnsOf (u a : Nat → String) (n : Nat) : List Turn :=
  (List.range n).flatMap (fun i => [⟨Role.user, u i⟩, ⟨Role.assistant, a i⟩])

/-- A request is answered upstream (its completion call does not throw). -/
def answered (r : ChatBody × Completion) : Bool :=
  match r.2 with
  | Completion.ok _ => true
  | Completion.fail _ => false

end ChatServer

namespace ChatClient

/-! ## `escapeHtml` -/

/-- The object literal `map` of `escapeHtml`, as its list of entries. -/
def escapeMap : List (Char × String) :=
  [('&', "&amp;"), ('<', "&lt;"), ('>', "&gt;"), (Char.ofNat 34, "&quot;"),
   (Char.ofNat 39, "&#039;")]

/-- The replacer `(m) => map[m]`; a missing property is `undefined`, which
`replace` inserts as the text `undefined`. -/
def replacer (m : Char) : String :=
  match escapeMap.lookup m with
  | some s => s
  | none => "undefined"

/-- The character class `[&<>"']` of the regular expression. -/
def classMatches (c : Char) : Bool :=
  c == '&' || c == '<' || c == '>' || c == Char.ofNat 34 || c == Char.ofNat 39

/-- The method `String.prototype.replace` for a global regular expression that is a single
character class: the scan goes left to right, every matching character is
replaced by the replacer's result, every other character is copied. -/
def replaceClass (cls : Char → Bool) (f : Char → String) : List Char → List Char
  | [] => []
  | c :: cs => if cls c then (f c).data ++ replaceClass cls f cs else c :: replaceClass cls f cs

/-- The method `escapeHtml(text)`. -/
def escapeHtml (text : String) : String :=
  ⟨replaceClass classMatches replacer text.data⟩

/-- The per-character replacement as the specification words it. -/
def escapeChar (c : Char) : String :=
  if c = '&' then "&amp;"
  else if c = '<' then "&lt;"
  else if c = '>' then "&gt;"
  else if c = Char.ofNat 34 then "&quot;"
  else if c = Char.ofNat 39 then "&#039;"
  else ⟨[c]⟩

/-- The escaped text as the specification words it: the concatenation of the
per-character replacements. -/
def escapeSpec (t : String) : String :=
  ⟨t.data.flatMap (fun c => (escapeChar c).data)⟩

/-- The five entities. -/
def entities : List String :=
  ["&amp;", "&lt;", "&gt;", "&quot;", "&#039;"]

/-- Checker: every `&` of the list starts one of the five entities. -/
def ampsStartEntities : List Char → Bool
  | [] => true
  | c :: cs => (c != '&' || entities.any (fun e => e.data.isPrefixOf (c :: cs))) && ampsStartEntities cs

/-! ## The `ChatBot` controller -/

/-- The `sender` argument of `addMessage`. -/
inductive Sender where
  | user
  | bot
  deriving DecidableEq, Repr

/-- The text a sender contributes to the class name. -/
def Sender.name : Sender → String
  | Sender.user => "user"
  | Sender.bot => "bot"

/-- A child of the `chatMessages` element: a message (class name, the
`innerHTML` of its content element, the inline colour if one was set; the
clock text of the time element is left out) or a typing indicator, which
carries the identity of the DOM node so that it can be removed again. -/
inductive Node where
  | message (className : String) (innerHTML : String) (color : Option String)
  | typing (id : Nat)
  deriving DecidableEq, Repr

/-- A chat request that `fetch` has sent and that is not yet resolved, with the
local variables of the suspended `sendMessage` call. -/
structure Pending where
  message : String
  sessionId : String
  typingIndicator : Nat
  deriving DecidableEq, Repr

/-- The controller, its DOM elements and the network. -/
structure ChatBot where
  sessionId : String
  inputValue : String
  inputDisabled : Bool
  buttonDisabled : Bool
  buttonText : String
  chatMessages : List Node
  nextNode : Nat
  outstanding : List Pending
  issued : Nat
  deriving DecidableEq, Repr

/-- The method `setInputDisabled(disabled)`. -/
def setInputDisabled (s : ChatBot) (disabled : Bool) : ChatBot :=
  { s with
    inputDisabled := disabled
    buttonDisabled := disabled
    buttonText := if disabled then "Sending..." else "Send" }

/-- The method `addMessage(content, sender, isError)`. -/
def addMessage (s : ChatBot) (content : String) (sender : Sender) (isError : Bool) : ChatBot :=
  let className := "message " ++ sender.name ++ "-message"
  let node :=
    if sender = Sender.user then
      Node.message className ("<strong>You:</strong> " ++ escapeHtml content) none
    else
      Node.message className ("<strong>AI Bot:</strong> " ++ escapeHtml content)
        (if isError then some "#e74c3c" else none)
  { s with chatMessages := s.chatMessages ++ [node] }

/-- The method `addTypingIndicator()`: appends a fresh node and returns it. -/
def addTypingIndicator (s : ChatBot) : ChatBot × Nat :=
  ({ s with chatMessages := s.chatMessages ++ [Node.typing s.nextNode], nextNode := s.nextNode + 1 },
   s.nextNode)

/-- The call `typingIndicator.remove()`. -/
def removeTyping (s : ChatBot) (id : Nat) : ChatBot :=
  { s with chatMessages := s.chatMessages.filter (fun n => n != Node.typing id) }

/-- The method `sendMessage()` up to the `await fetch(...)`: the request is handed to the
network and the call is suspended. -/
def sendMessage (s : ChatBot) : ChatBot :=
  let message := ChatServer.jsTrim s.inputValue
  if message.data.isEmpty then s
  else
    let s := setInputDisabled s true
    let s := addMessage s message Sender.user false
    let s := { s with inputValue := "" }
    let (s, typingIndicator) := addTypingIndicator s
    { s with
      outstanding := s.outstanding ++ [⟨message, s.sessionId, typingIndicator⟩]
      issued := s.issued + 1 }

/-- How a chat request resolves: a response with `response.ok`, a response
without it, or a rejected `fetch` or `response.json()`. -/
inductive Outcome where
  | responseOk (response : String)
  | responseError (error : String)
  | transportFailure
  deriving DecidableEq, Repr

/-- The rest of `sendMessage()` after the `await`s, for the suspended call `p`. -/
def resume (s : ChatBot) (p : Pending) (o : Outcome) : ChatBot :=
  let s := removeTyping s p.typingIndicator
  let s :=
    match o with
    | Outcome.responseOk response => addMessage s response Sender.bot false
    | Outcome.responseError error =>
      addMessage s ("Sorry, I encountered an error: " ++ error) Sender.bot true
    | Outcome.transportFailure =>
      addMessage s "Sorry, I'm having trouble connecting. Please try again." Sender.bot true
  setInputDisabled s false

/-- The canned greeting `clearChat` writes into the transcript. -/
def greeting : Node :=
  Node.message "message bot-message"
    "<strong>AI Bot:</strong> Hello! I'm your AI assistant. How can I help you today?" none

/-- What happens to the page. A disabled control receives no user input: the
browser delivers no `click` to a disabled button and no key to a disabled
text field, which is how `setInputDisabled` takes effect. -/
inductive Event where
  | edit (text : String)
  | clickSend
  | pressEnter
  | resolve (o : Outcome)
  | cleared (newSessionId : String)
  deriving DecidableEq, Repr

/-- One step of the controller. `resolve` resumes the oldest suspended call;
`cleared` is `clearChat()` after a confirmed and successful delete request. -/
def step (s : ChatBot) : Event → ChatBot
  | Event.edit text => if s.inputDisabled then s else { s with inputValue := text }
  | Event.clickSend => if s.buttonDisabled then s else sendMessage s
  | Event.pressEnter => if s.inputDisabled then s else sendMessage s
  | Event.resolve o =>
    match s.outstanding with
    | [] => s
    | p :: rest => resume { s with outstanding := rest } p o
  | Event.cleared newSessionId => { s with chatMessages := [greeting], sessionId := newSessionId }

/-- The `submit(text)` event of the controller: the user enters `text` and
triggers sending, by the button or by the Enter key. -/
def submit (s : ChatBot) (text : String) (byEnter : Bool) : ChatBot :=
  step (step s (Event.edit text)) (if byEnter then Event.pressEnter else Event.clickSend)

/-- The controller after `new ChatBot()`: the page as loaded (its transcript
and button label come from the HTML), nothing sent. -/
def init (sessionId : String) (buttonText : String) (transcript : List Node) : ChatBot :=
  { sessionId := sessionId
    inputValue := ""
    inputDisabled := false
    buttonDisabled := false
    buttonText := buttonText
    chatMessages := transcript
    nextNode := 0
    outstanding := []
    issued := 0 }

/-- The controller after a sequence of events. -/
def run (s : ChatBot) (es : List Event) : ChatBot :=
  es.foldl step s

/-- The invariant behind the single outstanding request: either nothing is
outstanding and both controls are enabled, or exactly one request is
outstanding, both controls are disabled and the message field is empty. -/
def SingleFlight (s : ChatBot) : Prop :=
  (s.outstanding = [] ∧ s.inputDisabled = false ∧ s.buttonDisabled = false) ∨
  (s.outstanding.length = 1 ∧ s.inputDisabled = true ∧ s.buttonDisabled = true ∧
    s.inputValue = "")

instance (s : ChatBot) : Decidable (SingleFlight s) :=
  inferInstanceAs (Decidable (_ ∨ _))

end ChatClient

/-! # Verified properties -/

open ChatServer ChatClient

/-! ## Lemmas on the primitives -/

theorem jsSlice_neg_ten {α : Type} (xs : List α) :
    jsSlice (-10) xs = xs.drop (xs.length - min 10 xs.length) := by
  unfold jsSlice
  simp only [show ((-10 : Int) < 0) from by decide, if_true]
  congr 1
  omega

theorem falsy_some_of_ne (s : String) (h : s ≠ "") : falsy (some s) = false := by
  cases s with
  | mk d =>
    cases d with
    | nil => exact absurd rfl h
    | cons c cs => rfl

theorem mapGet_cons (e : String × List Turn) (es : Conversations) (k : String) :
    mapGet (e :: es) k = if e.1 = k then some e.2 else mapGet es k := by
  by_cases h : e.1 = k
  · simp [mapGet, List.find?_cons, h]
  · have hb : (e.1 == k) = false := by simpa using h
    simp only [mapGet, List.find?_cons, hb, h, if_false]

theorem mapHas_cons (e : String × List Turn) (es : Conversations) (k : String) :
    mapHas (e :: es) k = (e.1 == k || mapHas es k) := by
  simp [mapHas]

theorem mapDelete_cons (e : String × List Turn) (es : Conversations) (k : String) :
    mapDelete (e :: es) k = if e.1 = k then mapDelete es k else e :: mapDelete es k := by
  by_cases h : e.1 = k
  · simp [mapDelete, List.filter_cons, h]
  · simp [mapDelete, List.filter_cons, h]

theorem mapHas_eq_isSome (m : Conversations) (k : String) :
    mapHas m k = (mapGet m k).isSome := by
  induction m with
  | nil => rfl
  | cons e es ih =>
    rw [mapHas_cons, mapGet_cons, ih]
    by_cases h : e.1 = k <;> simp [h]

theorem mapGet_eq_none_of_not_has (m : Conversations) (k : String) (h : ¬ mapHas m k = true) :
    mapGet m k = none := by
  rw [mapHas_eq_isSome] at h
  cases hg : mapGet m k with
  | none => rfl
  | some v => rw [hg] at h; exact absurd rfl h

theorem mapGet_append_single (m : Conversations) (k k2 : String) (v : List Turn) :
    mapGet (m ++ [(k, v)]) k2 =
      if (mapGet m k2).isSome then mapGet m k2 else if k = k2 then some v else none := by
  induction m with
  | nil => simp [mapGet_cons]; rfl
  | cons e es ih =>
    rw [List.cons_append, mapGet_cons, mapGet_cons, ih]
    by_cases h : e.1 = k2 <;> simp [h]

theorem mapGet_map_replace (m : Conversations) (k k2 : String) (v : List Turn) :
    mapGet (m.map (fun e => if e.1 == k then (k, v) else e)) k2 =
      if k2 = k then (if mapHas m k then some v else none) else mapGet m k2 := by
  induction m with
  | nil => simp [mapHas, mapGet]
  | cons e es ih =>
    rw [List.map_cons, mapGet_cons, ih, mapHas_cons, mapGet_cons]
    by_cases h : e.1 = k
    · by_cases h2 : k2 = k
      · simp [h, h2]
      · have h3 : ¬ k = k2 := fun h4 => h2 h4.symm
        simp [h, h2, h3]
    · by_cases h2 : k2 = k
      · subst h2; simp [h]
      · simp [h, h2]

theorem mapGet_mapSet_self (m : Conversations) (k : String) (v : List Turn) :
    mapGet (mapSet m k v) k = some v := by
  unfold mapSet
  by_cases hh : mapHas m k = true
  · rw [if_pos hh, mapGet_map_replace]; simp [hh]
  · rw [if_neg hh, mapGet_append_single, mapGet_eq_none_of_not_has m k hh]; simp

theorem mapGet_mapSet_other (m : Conversations) (k k2 : String) (v : List Turn) (hk : k2 ≠ k) :
    mapGet (mapSet m k v) k2 = mapGet m k2 := by
  unfold mapSet
  by_cases hh : mapHas m k = true
  · rw [if_pos hh, mapGet_map_replace]; simp [hk]
  · rw [if_neg hh, mapGet_append_single]
    have h3 : ¬ k = k2 := fun h4 => hk h4.symm
    cases hg : mapGet m k2 <;> simp [h3]

theorem mapGet_mapDelete_self (m : Conversations) (k : String) :
    mapGet (mapDelete m k) k = none := by
  induction m with
  | nil => rfl
  | cons e es ih =>
    rw [mapDelete_cons]
    by_cases h : e.1 = k
    · rw [if_pos h]; exact ih
    · rw [if_neg h, mapGet_cons, if_neg h]; exact ih

theorem mapGet_mapDelete_other (m : Conversations) (k k2 : String) (hk : k2 ≠ k) :
    mapGet (mapDelete m k) k2 = mapGet m k2 := by
  induction m with
  | nil => rfl
  | cons e es ih =>
    rw [mapDelete_cons, mapGet_cons]
    by_cases h : e.1 = k
    · have h2 : ¬ e.1 = k2 := fun h3 => hk (h3.symm.trans h)
      rw [if_pos h, if_neg h2]; exact ih
    · rw [if_neg h, mapGet_cons, ih]

theorem mapDelete_of_not_has (m : Conversations) (k : String) (h : mapHas m k = false) :
    mapDelete m k = m := by
  induction m with
  | nil => rfl
  | cons e es ih =>
    rw [mapHas_cons] at h
    by_cases h1 : e.1 = k
    · simp [h1] at h
    · have h2 : mapHas es k = false := by simpa [h1] using h
      rw [mapDelete_cons, if_neg h1, ih h2]

theorem mapDelete_idem (m : Conversations) (k : String) :
    mapDelete (mapDelete m k) k = mapDelete m k := by
  simp [mapDelete, List.filter_filter]

/-- What `chatPrepare` computes for an accepted message. -/
theorem chatPrepare_accepts (conversations : Conversations) (td : List TrainingExample)
    (body : ChatBody) (m : String) (hm : body.message = some m) (hne : m ≠ "") :
    ∃ st, chatPrepare conversations td body =
        some (st, sessionIdOf body,
          buildMessages td (history conversations (sessionIdOf body) ++ [⟨Role.user, m⟩])) ∧
      mapGet st (sessionIdOf body) =
        some (history conversations (sessionIdOf body) ++ [⟨Role.user, m⟩]) ∧
      ∀ k, k ≠ sessionIdOf body → mapGet st k = mapGet conversations k := by
  have hf : falsy (some m) = false := falsy_some_of_ne m hne
  by_cases hh : mapHas conversations (sessionIdOf body) = true
  · refine ⟨_, ?_, mapGet_mapSet_self _ _ _, fun k hk => mapGet_mapSet_other _ _ _ _ hk⟩
    simp [chatPrepare, hf, hh, hm, history]
  · have hg : mapGet conversations (sessionIdOf body) = none := by
      have := mapHas_eq_isSome conversations (sessionIdOf body)
      cases h : mapGet conversations (sessionIdOf body) with
      | none => rfl
      | some v => rw [h] at this; simp [this] at hh
    refine ⟨mapSet (mapSet conversations (sessionIdOf body) []) (sessionIdOf body)
      (history conversations (sessionIdOf body) ++ [⟨Role.user, m⟩]), ?_,
      mapGet_mapSet_self _ _ _, fun k hk => ?_⟩
    · simp [chatPrepare, hf, hh, hm, history, hg, mapGet_mapSet_self]
    · rw [mapGet_mapSet_other _ _ _ _ hk]
      exact mapGet_mapSet_other _ _ _ _ hk

theorem lastTen_length {α : Type} (xs : List α) : (lastTen xs).length = min 10 xs.length := by
  simp only [lastTen, List.length_drop]
  omega

theorem string_join_acc (l : List String) (acc : String) :
    l.foldl (fun r s => r ++ s) acc = acc ++ String.join l := by
  induction l generalizing acc with
  | nil => simp [String.join]
  | cons x xs ih =>
    simp only [List.foldl_cons, String.join]
    rw [ih, ih ("" ++ x)]
    simp [String.append_assoc]

theorem string_join_cons (x : String) (xs : List String) :
    String.join (x :: xs) = x ++ String.join xs := by
  show (x :: xs).foldl (fun r s => r ++ s) "" = x ++ String.join xs
  rw [List.foldl_cons, string_join_acc]
  simp

theorem foldl_appendExample (l : List TrainingExample) (p : String) :
    l.foldl appendExample p = p ++ String.join (l.map renderExample) := by
  induction l generalizing p with
  | nil => simp [String.join]
  | cons x xs ih =>
    simp only [List.foldl_cons, List.map_cons, ih]
    rw [string_join_cons]
    simp [appendExample, renderExample, String.append_assoc]

/-- C4. `createSystemPrompt` returns persona, example block, closing text; the
block is empty for an empty corpus and otherwise the header followed by the
renderings of the last `min(10, n)` examples in insertion order, so never more
than 10; with an empty corpus the prompt is persona plus closing text and
contains neither `User:` nor `Assistant:`. -/
theorem createSystemPrompt_window (c : List TrainingExample) :
    createSystemPrompt c = persona ++ examplesBlock c ++ closing ∧
    examplesBlock [] = "" ∧
    (lastTen c).length = min 10 c.length ∧
    (lastTen c).length ≤ 10 ∧
    lastTen c <:+ c ∧
    createSystemPrompt [] = persona ++ closing ∧
    ¬ ("User:".data <:+: (createSystemPrompt []).data) ∧
    ¬ ("Assistant:".data <:+: (createSystemPrompt []).data) := by
  refine ⟨?_, rfl, lastTen_length c, ?_, List.drop_suffix _ _, ?_, ?_, ?_⟩
  · cases c with
    | nil => simp [createSystemPrompt, examplesBlock]
    | cons x xs =>
      simp [createSystemPrompt, examplesBlock, jsSlice_neg_ten, foldl_appendExample, lastTen,
        String.append_assoc]
  · rw [lastTen_length]; omega
  · simp [createSystemPrompt]
  · set_option maxRecDepth 100000 in decide
  · set_option maxRecDepth 100000 in decide

/-- C3. The message list sent upstream is one system message carrying the
system prompt followed by the last `min(10, |h|)` turns of the history `h`,
unmodified and oldest first; for an accepted message `chatPrepare` sends this
list for `h` = stored history plus the new user turn, and the store then
holds exactly `h` for the session. -/
theorem context_window (conversations : Conversations) (td : List TrainingExample)
    (body : ChatBody) (m : String) (hm : body.message = some m) (hne : m ≠ "") :
    (∀ h : List Turn, buildMessages td h = ⟨Role.system, createSystemPrompt td⟩ :: lastTen h ∧
      (lastTen h).length = min 10 h.length ∧ lastTen h <:+ h) ∧
    ∃ st, chatPrepare conversations td body =
        some (st, sessionIdOf body,
          ⟨Role.system, createSystemPrompt td⟩ ::
            lastTen (history conversations (sessionIdOf body) ++ [⟨Role.user, m⟩])) ∧
      history st (sessionIdOf body) =
        history conversations (sessionIdOf body) ++ [⟨Role.user, m⟩] := by
  have hb : ∀ h : List Turn,
      buildMessages td h = ⟨Role.system, createSystemPrompt td⟩ :: lastTen h := by
    intro h
    simp [buildMessages, jsSlice_neg_ten, lastTen]
  refine ⟨fun h => ⟨hb h, lastTen_length h, List.drop_suffix _ _⟩, ?_⟩
  obtain ⟨st, h1, h2, _⟩ := chatPrepare_accepts conversations td body m hm hne
  refine ⟨st, ?_, ?_⟩
  · rw [h1, hb]
  · simp [history, h2]

/-- Instance of `context_window`: the message `hi` on a session holding one exchange. -/
theorem context_window_witness :
    (∀ h : List Turn, buildMessages [] h = ⟨Role.system, createSystemPrompt []⟩ :: lastTen h ∧
      (lastTen h).length = min 10 h.length ∧ lastTen h <:+ h) ∧
    ∃ st, chatPrepare [("s", [⟨Role.user, "a"⟩, ⟨Role.assistant, "b"⟩])] [] ⟨some "hi", some "s"⟩ =
        some (st, sessionIdOf ⟨some "hi", some "s"⟩,
          ⟨Role.system, createSystemPrompt []⟩ ::
            lastTen (history [("s", [⟨Role.user, "a"⟩, ⟨Role.assistant, "b"⟩])]
              (sessionIdOf ⟨some "hi", some "s"⟩) ++ [⟨Role.user, "hi"⟩])) ∧
      history st (sessionIdOf ⟨some "hi", some "s"⟩) =
        history [("s", [⟨Role.user, "a"⟩, ⟨Role.assistant, "b"⟩])]
          (sessionIdOf ⟨some "hi", some "s"⟩) ++ [⟨Role.user, "hi"⟩] :=
  context_window [("s", [⟨Role.user, "a"⟩, ⟨Role.assistant, "b"⟩])] [] ⟨some "hi", some "s"⟩ "hi"
    rfl (by decide)

/-- C5 (evaluation). A training request whose input is a single space passes
the presence check, is stored with the empty input, and raises the count. -/
theorem train_accepts_blank_input :
    train [] ⟨some " ", some "x", none⟩ 1700000000000 "t" =
      ([{ id := 1700000000000, input := "", output := "x", category := "general",
          timestamp := "t" }],
       TrainResponse.ok200 "Training data added successfully" 1) ∧
    jsTrim " " = "" := by
  decide

/-- A training request whose input or output is absent or the empty string is
answered 400 and leaves the corpus unchanged. -/
theorem train_rejects_empty (td : List TrainingExample) (body : TrainBody) (now : Nat)
    (iso : String) (h : falsy body.input = true ∨ falsy body.output = true) :
    train td body now iso = (td, TrainResponse.error400 "Both input and output are required") := by
  rcases h with h | h <;> simp [train, h]

theorem train_ids_sublist (reqs : List (TrainBody × Nat × String)) (td : List TrainingExample) :
    List.Sublist ((trainAll td reqs).map (fun e => e.id))
      (td.map (fun e => e.id) ++ reqs.map (fun r => r.2.1)) := by
  induction reqs generalizing td with
  | nil => simp [trainAll]
  | cons r rs ih =>
    have hstep : trainAll td (r :: rs) = trainAll (train td r.1 r.2.1 r.2.2).1 rs := rfl
    rw [hstep]
    refine (ih _).trans ?_
    simp only [List.map_cons]
    by_cases hc : (falsy r.1.input || falsy r.1.output) = true
    · simp only [train, hc, if_true]
      exact List.Sublist.append_left (List.sublist_cons_self _ _) _
    · simp [train, hc]

/-- C9 (counterexample). Two accepted training requests handled within the same
millisecond (a non-decreasing clock) leave two examples with the same id. -/
theorem train_ids_collide :
    List.Pairwise (fun a b : Nat => a ≤ b) [1700000000000, 1700000000000] ∧
    (trainAll [] [(⟨some "a", some "b", none⟩, 1700000000000, "t"),
        (⟨some "c", some "d", none⟩, 1700000000000, "t")]).map (fun e => e.id) =
      [1700000000000, 1700000000000] ∧
    ¬ ((trainAll [] [(⟨some "a", some "b", none⟩, 1700000000000, "t"),
        (⟨some "c", some "d", none⟩, 1700000000000, "t")]).map (fun e => e.id)).Nodup := by
  decide

/-- C9 (amended). Starting from the empty corpus, when the clock readings of
the training requests are strictly increasing, the examples of the corpus
have pairwise different ids. -/
theorem train_ids_distinct (reqs : List (TrainBody × Nat × String))
    (hclock : List.Pairwise (fun a b : Nat => a < b) (reqs.map (fun r => r.2.1))) :
    ((trainAll [] reqs).map (fun e => e.id)).Nodup ∧
    ∀ (i j : Nat) (hi : i < (trainAll [] reqs).length) (hj : j < (trainAll [] reqs).length),
      i ≠ j → ((trainAll [] reqs).get ⟨i, hi⟩).id ≠ ((trainAll [] reqs).get ⟨j, hj⟩).id := by
  have hsub := train_ids_sublist reqs []
  simp only [List.map_nil, List.nil_append] at hsub
  have hpw : List.Pairwise (fun a b : Nat => a < b) ((trainAll [] reqs).map (fun e => e.id)) :=
    hclock.sublist hsub
  have hnd : ((trainAll [] reqs).map (fun e => e.id)).Nodup :=
    hpw.imp (fun h => Nat.ne_of_lt h)
  refine ⟨hnd, ?_⟩
  intro i j hi hj hij heq
  have hinj := List.nodup_iff_injective_get.mp hnd
  have : (⟨i, by simpa using hi⟩ : Fin ((trainAll [] reqs).map (fun e => e.id)).length)
      = ⟨j, by simpa using hj⟩ := by
    apply hinj
    simpa using heq
  exact hij (Fin.mk.inj this)

/-- Instance of `train_ids_distinct`: two accepted requests at clock readings 1 and 2. -/
theorem train_ids_distinct_witness :
    List.Pairwise (fun a b : Nat => a < b)
      ([((⟨some "a", some "b", none⟩ : TrainBody), 1, "t"),
        ((⟨some "c", some "d", none⟩ : TrainBody), 2, "t")].map (fun r => r.2.1)) ∧
    ((trainAll [] [(⟨some "a", some "b", none⟩, 1, "t"),
        (⟨some "c", some "d", none⟩, 2, "t")]).map (fun e => e.id)).Nodup :=
  ⟨by decide, (train_ids_distinct [(⟨some "a", some "b", none⟩, 1, "t"),
        (⟨some "c", some "d", none⟩, 2, "t")] (by decide)).1⟩

/-- C10. Clearing a session always answers 200 and removes the key: the
session then has no history, every other session is untouched, a second clear
changes nothing, clearing an absent id leaves the store as it is, and the
first accepted message under an id that is absent afterwards meets a history
of exactly that one user turn at prompt-build time. -/
theorem clear_session (st : Conversations) (s : String) :
    (clearConversation st s).2 = 200 ∧
    mapHas (clearConversation st s).1 s = false ∧
    history (clearConversation st s).1 s = [] ∧
    (∀ k, k ≠ s → mapGet (clearConversation st s).1 k = mapGet st k ∧
      history (clearConversation st s).1 k = history st k) ∧
    clearConversation (clearConversation st s).1 s = clearConversation st s ∧
    (mapHas st s = false → (clearConversation st s).1 = st) ∧
    (∀ (td : List TrainingExample) (sid m : String),
      mapHas (clearConversation st s).1 sid = false → m ≠ "" →
      ∃ st2, chatPrepare (clearConversation st s).1 td ⟨some m, some sid⟩ =
          some (st2, sid, [⟨Role.system, createSystemPrompt td⟩, ⟨Role.user, m⟩]) ∧
        history st2 sid = [⟨Role.user, m⟩]) := by
  have hnone : mapGet (mapDelete st s) s = none := mapGet_mapDelete_self st s
  refine ⟨rfl, ?_, ?_, ?_, ?_, ?_, ?_⟩
  · simp [clearConversation, mapHas_eq_isSome, hnone]
  · simp [clearConversation, history, hnone]
  · intro k hk
    have := mapGet_mapDelete_other st s k hk
    simp [clearConversation, history, this]
  · simp [clearConversation, mapDelete_idem]
  · intro h
    exact mapDelete_of_not_has st s h
  · intro td sid m hsid hne
    obtain ⟨st2, h1, h2, _⟩ :=
      chatPrepare_accepts (clearConversation st s).1 td ⟨some m, some sid⟩ m rfl hne
    have hg : mapGet (clearConversation st s).1 sid = none :=
      mapGet_eq_none_of_not_has _ _ (by simp [hsid])
    have hsidOf : sessionIdOf ⟨some m, some sid⟩ = sid := rfl
    rw [hsidOf] at h1 h2
    refine ⟨st2, ?_, ?_⟩
    · rw [h1]
      simp [history, hg, buildMessages, jsSlice_neg_ten]
    · simp [history, h2, hg]

/-- Instance of `clear_session`: session `s3` is cleared and `hello` arrives under `s4`. -/
theorem clear_session_witness :
    history (clearConversation [("s3", [⟨Role.user, "old"⟩, ⟨Role.assistant, "reply"⟩])] "s3").1 "s3" = [] ∧
    ∃ st2, chatPrepare (clearConversation [("s3", [⟨Role.user, "old"⟩, ⟨Role.assistant, "reply"⟩])] "s3").1
        [] ⟨some "hello", some "s4"⟩ =
          some (st2, "s4", [⟨Role.system, createSystemPrompt []⟩, ⟨Role.user, "hello"⟩]) ∧
        history st2 "s4" = [⟨Role.user, "hello"⟩] :=
  ⟨(clear_session [("s3", [⟨Role.user, "old"⟩, ⟨Role.assistant, "reply"⟩])] "s3").2.2.1,
   (clear_session [("s3", [⟨Role.user, "old"⟩, ⟨Role.assistant, "reply"⟩])] "s3").2.2.2.2.2.2
     [] "s4" "hello" (by decide) (by decide)⟩

/-! ## Retention -/

theorem trimStep_length_le (h : List Turn) (hh : h.length ≤ 22) : (trimStep h).length ≤ 20 := by
  unfold trimStep jsSplice
  split
  · simp; omega
  · omega

theorem chat_answered_bound (st : Conversations) (td : List TrainingExample) (body : ChatBody)
    (a : String) (hst : ∀ k, (history st k).length ≤ 20) :
    ∀ k, (history (chat st td body (Completion.ok a)).1 k).length ≤ 20 := by
  intro k
  by_cases hf : falsy body.message = true
  · simp only [chat, chatPrepare, hf, if_true]
    exact hst k
  · cases hm : body.message with
    | none => simp [hm, falsy] at hf
    | some m =>
      have hne : m ≠ "" := by
        intro h0
        subst h0
        exact hf (by rw [hm]; rfl)
      obtain ⟨st1, h1, h2, h3⟩ := chatPrepare_accepts st td body m hm hne
      simp only [chat, h1, chatComplete, h2, Option.getD_some]
      by_cases hk : k = sessionIdOf body
      · subst hk
        simp only [history, mapGet_mapSet_self, Option.getD_some]
        apply trimStep_length_le
        have := hst (sessionIdOf body)
        simp only [history] at this
        simp only [List.length_append, List.length_singleton]
        omega
      · have := hst k
        simp only [history] at this ⊢
        rw [mapGet_mapSet_other _ _ _ _ hk, h3 k hk]
        exact this

/-- When every completion call succeeds the retention bound holds: from the
empty store, every session keeps at most 20 turns after every request. -/
theorem history_bound_of_answered (td : List TrainingExample)
    (reqs : List (ChatBody × Completion)) (hall : ∀ r ∈ reqs, answered r = true) (k : String) :
    (history (chatAll [] td reqs) k).length ≤ 20 := by
  suffices hgen : ∀ (st : Conversations), (∀ k, (history st k).length ≤ 20) →
      ∀ k, (history (chatAll st td reqs) k).length ≤ 20 from
    hgen [] (fun k => by simp [history, mapGet]) k
  induction reqs with
  | nil => intro st hst k; exact hst k
  | cons r rs ih =>
    intro st hst
    have hr : answered r = true := hall r (List.mem_cons_self _ _)
    have hstep : chatAll st td (r :: rs) = chatAll (chat st td r.1 r.2).1 td rs := rfl
    rw [hstep]
    apply ih (fun r2 h2 => hall r2 (List.mem_cons_of_mem _ h2))
    cases hc : r.2 with
    | ok a => exact chat_answered_bound st td r.1 a hst
    | fail e => simp [answered, hc] at hr

/-- Instance of `history_bound_of_answered`: one answered request. -/
theorem history_bound_of_answered_witness :
    (history (chatAll [] [] [(⟨some "hi", some "s"⟩, Completion.ok "yo")]) "s").length ≤ 20 :=
  history_bound_of_answered [] [(⟨some "hi", some "s"⟩, Completion.ok "yo")] (by decide) "s"

/-- C1 (evaluation). Ten answered requests fill a session to 20 turns; one
more request whose completion call fails leaves 21 turns stored. -/
theorem retention_exceeded_after_failure :
    (history (chatAll [] [] (List.replicate 10 (⟨some "hi", some "s"⟩, Completion.ok "yo"))) "s").length
      = 20 ∧
    (history (chatAll [] [] (List.replicate 10 (⟨some "hi", some "s"⟩, Completion.ok "yo") ++
        [(⟨some "hi", some "s"⟩, Completion.fail "down")])) "s").length = 21 ∧
    (history (chatAll [] [] (List.replicate 25 (⟨some "hi", some "s"⟩, Completion.fail "down")))
      "s").length = 25 := by
  set_option maxRecDepth 100000 in decide

/-- C2 (evaluation). After one failed request and nine answered ones the
session holds 19 turns; the next answered request makes 21, the trim step
removes the two oldest, both user turns, and an assistant turn is left at the
front. -/
theorem trim_leaves_assistant_first :
    (history (chatAll [] [] ((⟨some "lost", some "s"⟩, Completion.fail "down") ::
        List.replicate 9 (⟨some "hi", some "s"⟩, Completion.ok "yo"))) "s").length = 19 ∧
    (history (chatAll [] [] ((⟨some "lost", some "s"⟩, Completion.fail "down") ::
        List.replicate 9 (⟨some "hi", some "s"⟩, Completion.ok "yo"))) "s").take 3 =
      [⟨Role.user, "lost"⟩, ⟨Role.user, "hi"⟩, ⟨Role.assistant, "yo"⟩] ∧
    (history (chatAll [] [] ((⟨some "lost", some "s"⟩, Completion.fail "down") ::
        List.replicate 10 (⟨some "hi", some "s"⟩, Completion.ok "yo"))) "s").length = 19 ∧
    (history (chatAll [] [] ((⟨some "lost", some "s"⟩, Completion.fail "down") ::
        List.replicate 10 (⟨some "hi", some "s"⟩, Completion.ok "yo"))) "s").head? =
      some ⟨Role.assistant, "yo"⟩ := by
  set_option maxRecDepth 100000 in decide

/-- C8 (counterexample). Twelve answered exchanges followed by the user turn of
a thirteenth request append 25 alternating turns to the fresh session `s2`;
the store then holds 21 turns, not 20, whether the thirteenth request is still
waiting for its completion or has failed. Trimming after every single append
would leave 19. -/
theorem scenario_twenty_five_not_twenty :
    (turnsOf (fun _ => "u") (fun _ => "a") 12 ++ [Turn.mk Role.user "u"]).length = 25 ∧
    (chatPrepare (chatAll [] [] ((List.range 12).map (exchange (fun _ => "u") (fun _ => "a"))))
        [] ⟨some "u", some "s2"⟩).map (fun r => (history r.1 "s2").length) = some 21 ∧
    (history (chat (chatAll [] [] ((List.range 12).map (exchange (fun _ => "u") (fun _ => "a"))))
        [] ⟨some "u", some "s2"⟩ (Completion.fail "down")).1 "s2").length = 21 ∧
    ¬ ((history (chat (chatAll [] [] ((List.range 12).map (exchange (fun _ => "u") (fun _ => "a"))))
        [] ⟨some "u", some "s2"⟩ (Completion.fail "down")).1 "s2").length = 20) ∧
    ((turnsOf (fun _ => "u") (fun _ => "a") 12 ++ [Turn.mk Role.user "u"]).foldl
        (fun h t => trimStep (h ++ [t])) []).length = 19 := by
  set_option maxRecDepth 100000 in decide

/-- C8 (amended). Twelve answered exchanges leave exactly the 20 most recent of
their 24 turns; when the user turn of a thirteenth request has been appended
(25 turns in all) the store holds, at prompt-build time, 21 turns: the 21 most
recent, the oldest 4 gone, the first with role `user`; once that request is
answered the store again holds exactly the 20 most recent turns. -/
theorem scenario_twenty_five (td : List TrainingExample) (u a : Nat → String)
    (hu : ∀ i, u i ≠ "") :
    history (chatAll [] td ((List.range 12).map (exchange u a))) "s2" = (turnsOf u a 12).drop 4 ∧
    (history (chatAll [] td ((List.range 12).map (exchange u a))) "s2").length = 20 ∧
    (∃ st25 msgs,
      chatPrepare (chatAll [] td ((List.range 12).map (exchange u a))) td
        ⟨some (u 12), some "s2"⟩ = some (st25, "s2", msgs) ∧
      history st25 "s2" = (turnsOf u a 12 ++ [Turn.mk Role.user (u 12)]).drop 4 ∧
      (turnsOf u a 12 ++ [Turn.mk Role.user (u 12)]).length = 25 ∧
      (history st25 "s2").length = 21 ∧
      (history st25 "s2").head? = some (⟨Role.user, u 2⟩ : Turn)) ∧
    history (chatAll [] td ((List.range 13).map (exchange u a))) "s2" = (turnsOf u a 13).drop 6 ∧
    (history (chatAll [] td ((List.range 13).map (exchange u a))) "s2").length = 20 := by
  have hf : ∀ i, falsy (some (u i)) = false := fun i => falsy_some_of_ne _ (hu i)
  simp [chatAll, chat, chatPrepare, chatComplete, hf, mapHas, mapGet, mapSet, sessionIdOf,
    List.range, List.range.loop, exchange, turnsOf, history, trimStep, jsSplice, buildMessages]

/-- Instance of `scenario_twenty_five`: every user message is `q`, every reply `r`. -/
theorem scenario_twenty_five_witness :
    (∀ i : Nat, (fun _ : Nat => "q") i ≠ "") ∧
    (history (chatAll [] [] ((List.range 12).map (exchange (fun _ => "q") (fun _ => "r")))) "s2").length
      = 20 :=
  ⟨fun _ => (by decide : "q" ≠ ""),
   (scenario_twenty_five [] (fun _ => "q") (fun _ => "r") (fun _ => (by decide : "q" ≠ ""))).2.1⟩

/-! ## Client -/

theorem escapeChar_eq (c : Char) :
    (if classMatches c then (replacer c).data else [c]) = (escapeChar c).data := by
  unfold escapeChar
  by_cases h1 : c = '&'
  · subst h1; rfl
  by_cases h2 : c = '<'
  · subst h2; rfl
  by_cases h3 : c = '>'
  · subst h3; rfl
  by_cases h4 : c = Char.ofNat 34
  · subst h4; rfl
  by_cases h5 : c = Char.ofNat 39
  · subst h5; rfl
  simp [classMatches, h1, h2, h3, h4, h5]

theorem replaceClass_eq (l : List Char) :
    replaceClass classMatches replacer l = l.flatMap (fun c => (escapeChar c).data) := by
  induction l with
  | nil => rfl
  | cons c cs ih =>
    have h := escapeChar_eq c
    simp only [replaceClass, List.flatMap_cons, ih]
    by_cases hc : classMatches c = true
    · simp only [hc, if_true] at h ⊢
      rw [h]
    · simp only [hc] at h ⊢
      rw [← h]; rfl

theorem escapeChar_clean (c x : Char) (hx : x ∈ (escapeChar c).data) :
    x ≠ '<' ∧ x ≠ '>' ∧ x ≠ Char.ofNat 34 ∧ x ≠ Char.ofNat 39 := by
  unfold escapeChar at hx
  split_ifs at hx with h1 h2 h3 h4 h5
  · have : ∀ y ∈ "&amp;".data, y ≠ '<' ∧ y ≠ '>' ∧ y ≠ Char.ofNat 34 ∧ y ≠ Char.ofNat 39 := by decide
    exact this x hx
  · have : ∀ y ∈ "&lt;".data, y ≠ '<' ∧ y ≠ '>' ∧ y ≠ Char.ofNat 34 ∧ y ≠ Char.ofNat 39 := by decide
    exact this x hx
  · have : ∀ y ∈ "&gt;".data, y ≠ '<' ∧ y ≠ '>' ∧ y ≠ Char.ofNat 34 ∧ y ≠ Char.ofNat 39 := by decide
    exact this x hx
  · have : ∀ y ∈ "&quot;".data, y ≠ '<' ∧ y ≠ '>' ∧ y ≠ Char.ofNat 34 ∧ y ≠ Char.ofNat 39 := by decide
    exact this x hx
  · have : ∀ y ∈ "&#039;".data, y ≠ '<' ∧ y ≠ '>' ∧ y ≠ Char.ofNat 34 ∧ y ≠ Char.ofNat 39 := by decide
    exact this x hx
  · simp only [List.mem_singleton] at hx
    subst hx
    exact ⟨h2, h3, h4, h5⟩

theorem ampsStartEntities_escapeChar_append (c : Char) (rest : List Char)
    (h : ampsStartEntities rest = true) :
    ampsStartEntities ((escapeChar c).data ++ rest) = true := by
  unfold escapeChar
  split_ifs with h1 h2 h3 h4 h5
  · simp [ampsStartEntities, entities, h, List.isPrefixOf]
  · simp [ampsStartEntities, entities, h, List.isPrefixOf]
  · simp [ampsStartEntities, entities, h, List.isPrefixOf]
  · simp [ampsStartEntities, entities, h, List.isPrefixOf]
  · simp [ampsStartEntities, entities, h, List.isPrefixOf]
  · simp [ampsStartEntities, h, h1]

theorem ampsStartEntities_flatMap (l : List Char) :
    ampsStartEntities (l.flatMap (fun c => (escapeChar c).data)) = true := by
  induction l with
  | nil => rfl
  | cons c cs ih =>
    rw [List.flatMap_cons]
    exact ampsStartEntities_escapeChar_append c _ ih

theorem ampsStartEntities_drop (l : List Char) (h : ampsStartEntities l = true) :
    ∀ (i : Nat) (rest : List Char), l.drop i = '&' :: rest →
      ∃ e ∈ entities, e.data <+: l.drop i := by
  induction l with
  | nil => intro i rest hd; simp at hd
  | cons c cs ih =>
    intro i rest hd
    simp only [ampsStartEntities, Bool.and_eq_true, Bool.or_eq_true, List.any_eq_true] at h
    cases i with
    | zero =>
      simp only [List.drop_zero, List.cons.injEq] at hd
      rcases h.1 with hne | ⟨e, he, hp⟩
      · simp [hd.1] at hne
      · exact ⟨e, he, by simpa [List.isPrefixOf_iff_prefix] using hp⟩
    | succ j =>
      simp only [List.drop_succ_cons] at hd ⊢
      exact ih h.2 j rest hd

/-- C6. The escaped text is the character-by-character replacement of the five
sensitive characters by their entities; it contains none of `<`, `>`, the
double quote and the apostrophe, every `&` in it starts one of the five
entities, and `addMessage` inserts exactly this text after its label, for
user and for bot messages. -/
theorem escapeHtml_spec (t : String) :
    escapeHtml t = escapeSpec t ∧
    (∀ x ∈ (escapeHtml t).data,
      x ≠ '<' ∧ x ≠ '>' ∧ x ≠ Char.ofNat 34 ∧ x ≠ Char.ofNat 39) ∧
    (∀ (i : Nat) (rest : List Char), (escapeHtml t).data.drop i = '&' :: rest →
      ∃ e ∈ entities, e.data <+: (escapeHtml t).data.drop i) ∧
    (∀ (s : ChatBot) (isError : Bool),
      (addMessage s t Sender.user isError).chatMessages =
        s.chatMessages ++
          [Node.message "message user-message" ("<strong>You:</strong> " ++ escapeHtml t) none] ∧
      (addMessage s t Sender.bot isError).chatMessages =
        s.chatMessages ++
          [Node.message "message bot-message" ("<strong>AI Bot:</strong> " ++ escapeHtml t)
            (if isError then some "#e74c3c" else none)]) := by
  have hdata : (escapeHtml t).data = t.data.flatMap (fun c => (escapeChar c).data) :=
    replaceClass_eq t.data
  refine ⟨?_, ?_, ?_, ?_⟩
  · simp only [escapeHtml, escapeSpec, replaceClass_eq]
  · intro x hx
    rw [hdata, List.mem_flatMap] at hx
    obtain ⟨c, _, hc⟩ := hx
    exact escapeChar_clean c x hc
  · rw [hdata]
    exact ampsStartEntities_drop _ (ampsStartEntities_flatMap t.data)
  · intro s isError
    constructor
    · simp only [addMessage, if_true]
      rfl
    · simp only [addMessage, if_neg (show ¬ Sender.bot = Sender.user from by decide)]
      rfl

theorem sendMessage_empty (s : ChatBot) (h : s.inputValue = "") : sendMessage s = s := by
  have : (ChatServer.jsTrim "").data.isEmpty = true := by decide
  simp [sendMessage, h, this]

theorem singleFlight_step (s : ChatBot) (e : Event) (h : SingleFlight s) :
    SingleFlight (step s e) := by
  rcases h with ⟨h0, hi, hb⟩ | ⟨h1, hi, hb, hv⟩
  · cases e with
    | edit t => simp [step, hi, SingleFlight, h0, hb]
    | clickSend =>
      simp only [step, hb, sendMessage]
      by_cases hm : (ChatServer.jsTrim s.inputValue).data.isEmpty = true
      · simp [hm, SingleFlight, h0, hi, hb]
      · simp [hm, SingleFlight, h0, setInputDisabled, addMessage, addTypingIndicator]
    | pressEnter =>
      simp only [step, hi, sendMessage]
      by_cases hm : (ChatServer.jsTrim s.inputValue).data.isEmpty = true
      · simp [hm, SingleFlight, h0, hi, hb]
      · simp [hm, SingleFlight, h0, setInputDisabled, addMessage, addTypingIndicator]
    | resolve o => simp [step, h0, SingleFlight, hi, hb]
    | cleared n => simp [step, SingleFlight, h0, hi, hb]
  · cases e with
    | edit t => simp [step, hi, SingleFlight, h1, hb, hv]
    | clickSend => simp [step, hi, SingleFlight, h1, hb, hv]
    | pressEnter => simp [step, hi, SingleFlight, h1, hb, hv]
    | resolve o =>
      match hs : s.outstanding, h1 with
      | [p], _ =>
        simp only [step, hs, resume]
        cases o <;> simp [SingleFlight, setInputDisabled, addMessage, removeTyping]
    | cleared n => simp [step, SingleFlight, h1, hi, hb, hv]

theorem singleFlight_run (es : List Event) (s : ChatBot) (h : SingleFlight s) :
    SingleFlight (run s es) := by
  induction es generalizing s with
  | nil => exact h
  | cons e es ih => exact ih _ (singleFlight_step s e h)

/-- C7. In every state the controller reaches from its initial state at most
one chat request is outstanding; both input controls are disabled exactly
while one is; and while one is outstanding a submit, by button or by Enter,
and even a direct call of `sendMessage`, issues no request and leaves the
whole state, transcript included, unchanged. -/
theorem single_outstanding_request (sessionId buttonText : String) (transcript : List Node)
    (es : List Event) :
    (run (init sessionId buttonText transcript) es).outstanding.length ≤ 1 ∧
    ((run (init sessionId buttonText transcript) es).inputDisabled = true ↔
      (run (init sessionId buttonText transcript) es).outstanding.length = 1) ∧
    ((run (init sessionId buttonText transcript) es).buttonDisabled = true ↔
      (run (init sessionId buttonText transcript) es).outstanding.length = 1) ∧
    ((run (init sessionId buttonText transcript) es).outstanding ≠ [] →
      (∀ text byEnter, submit (run (init sessionId buttonText transcript) es) text byEnter =
        run (init sessionId buttonText transcript) es) ∧
      sendMessage (run (init sessionId buttonText transcript) es) =
        run (init sessionId buttonText transcript) es) := by
  generalize hs : run (init sessionId buttonText transcript) es = s
  have h : SingleFlight s := by
    rw [← hs]
    exact singleFlight_run es _ (Or.inl ⟨rfl, rfl, rfl⟩)
  rcases h with ⟨h0, hi, hb⟩ | ⟨h1, hi, hb, hv⟩
  · simp [h0, hi, hb]
  · refine ⟨by omega, by simp [hi, h1], by simp [hb, h1], ?_⟩
    intro _
    refine ⟨?_, sendMessage_empty s hv⟩
    intro text byEnter
    cases byEnter <;> simp [submit, step, hi, hb]
